import Mathlib

/-!
Shallow embedding of the lifelogs event-ingestion core (API routes
`routes/import.ts`, `routes/events.ts` plus the CSV helpers defined there).
Strings are modelled as `List Char`; JavaScript numbers that carry epoch
timestamps are modelled as `Int`.  The platform `Date` string parser is an
abstract environment parameter (`DateParse`); the platform `JSON.parse` /
`JSON.stringify` pair is modelled concretely below.
-/

namespace Lifelogs

/-- Whitespace characters removed by JavaScript `String.prototype.trim`
(ASCII part plus NBSP and BOM; exotic Unicode space separators are not
used by any input considered here). -/
def jsWs (c : Char) : Bool :=
  c == ' ' || c == '\t' || c == '\n' || c == '\r' ||
  c.toNat == 11 || c.toNat == 12 || c.toNat == 160 || c.toNat == 65279

/-- Drop leading JS whitespace. -/
def trimStart (l : List Char) : List Char := l.dropWhile jsWs

/-- Drop trailing JS whitespace. -/
def trimEnd (l : List Char) : List Char := ((l.reverse).dropWhile jsWs).reverse

/-- JavaScript `s.trim()`. -/
def trimLC (l : List Char) : List Char := trimEnd (trimStart l)

/-- JavaScript `s.split(sep)` for a single-character separator
(keeps empty segments, always ≥ 1 segment). -/
def splitOnC (sep : Char) : List Char → List (List Char)
  | [] => [[]]
  | c :: rest =>
    if c = sep then [] :: splitOnC sep rest
    else
      match splitOnC sep rest with
      | [] => [[c]]
      | h :: t => (c :: h) :: t

/-- `body.split('\n')`. -/
def splitNl (l : List Char) : List (List Char) := splitOnC '\n' l

/-- Decimal digits of a natural number, as the characters of `String(n)`. -/
def natChars (n : Nat) : List Char := (Nat.repr n).data

/-- `routes/import.ts` `parseCSVLine`: one physical line into field strings;
quotes toggle `inQuotes`, a doubled quote inside quotes emits one literal
quote, commas outside quotes delimit, and every pushed field is `trim()`ed. -/
def csvLineGo (inQuotes : Bool) (current : List Char) : List Char → List (List Char)
  | [] => [trimLC current]
  | '"' :: '"' :: rest2 =>
    if inQuotes then csvLineGo inQuotes (current ++ ['"']) rest2
    else csvLineGo true current ('"' :: rest2)
  | '"' :: rest => csvLineGo (!inQuotes) current rest
  | ',' :: rest =>
    if inQuotes then csvLineGo inQuotes (current ++ [',']) rest
    else trimLC current :: csvLineGo inQuotes [] rest
  | c :: rest => csvLineGo inQuotes (current ++ [c]) rest

def parseCSVLine (line : List Char) : List (List Char) := csvLineGo false [] line

/-- A timestamp value as it reaches `parseTimestamp`: a JS number or string. -/
inductive TsVal where
  | num (n : Int)
  | str (s : List Char)
deriving DecidableEq, Repr

/-- Abstract model of the platform `new Date(string).getTime()`:
`none` when the string does not resolve to a valid instant. -/
def DateParse : Type := List Char → Option Int

/-- `routes/import.ts` `parseTimestamp`: numbers strictly below 10^10 are
seconds and scaled ×1000, otherwise already ms; strings go through `Date`,
an invalid instant throws `Invalid timestamp: <value>`. -/
def parseTimestamp (dp : DateParse) : TsVal → Except (List Char) Int
  | .num n => if n < 10000000000 then .ok (n * 1000) else .ok n
  | .str s =>
    match dp s with
    | some t => .ok t
    | none => .error ("Invalid timestamp: ".data ++ s)

/-! ### JSON model (platform `JSON.parse` / `JSON.stringify`) -/

mutual
/-- A JavaScript JSON value (arrays and objects through the two companion
types, so that all recursion below is structural). -/
inductive Json where
  | null
  | bool (b : Bool)
  | num (n : Int)
  | str (s : List Char)
  | arr (xs : JsonList)
  | obj (kvs : JsonMembers)

inductive JsonList where
  | nil
  | cons (hd : Json) (tl : JsonList)

inductive JsonMembers where
  | nil
  | cons (k : List Char) (v : Json) (tl : JsonMembers)
end

/-- Pack a parsed element list into a `JsonList`. -/
def jlOf : List Json → JsonList
  | [] => .nil
  | x :: xs => .cons x (jlOf xs)

/-- Pack a parsed member list into a `JsonMembers`. -/
def jmOf : List (List Char × Json) → JsonMembers
  | [] => .nil
  | (k, v) :: kvs => .cons k v (jmOf kvs)

/-- JSON insignificant whitespace. -/
def jWs (c : Char) : Bool := c == ' ' || c == '\t' || c == '\n' || c == '\r'

def skipJWs (l : List Char) : List Char := l.dropWhile jWs

def hexVal (c : Char) : Option Nat :=
  if c.isDigit then some (c.toNat - 48)
  else if 'a' ≤ c && c ≤ 'f' then some (c.toNat - 87)
  else if 'A' ≤ c && c ≤ 'F' then some (c.toNat - 55)
  else none

def jEscChar : Char → Option Char
  | '"' => some '"'
  | '\\' => some '\\'
  | '/' => some '/'
  | 'b' => some (Char.ofNat 8)
  | 'f' => some (Char.ofNat 12)
  | 'n' => some '\n'
  | 'r' => some '\r'
  | 't' => some '\t'
  | _ => none

/-- Scan a JSON string body (after the opening quote); returns content and rest. -/
def scanJStr : List Char → Option (List Char × List Char)
  | '"' :: rest => some ([], rest)
  | '\\' :: 'u' :: a :: b :: c :: d :: rest => do
    let ha ← hexVal a
    let hb ← hexVal b
    let hc ← hexVal c
    let hd ← hexVal d
    let p ← scanJStr rest
    some (Char.ofNat (((ha * 16 + hb) * 16 + hc) * 16 + hd) :: p.1, p.2)
  | '\\' :: e :: rest => do
    let c ← jEscChar e
    let p ← scanJStr rest
    some (c :: p.1, p.2)
  | c :: rest =>
    if c.toNat < 32 then none
    else do
      let p ← scanJStr rest
      some (c :: p.1, p.2)
  | [] => none

def digitsToNat (acc : Nat) : List Char → Nat
  | [] => acc
  | c :: rest => digitsToNat (acc * 10 + (c.toNat - 48)) rest

/-- Scan a JSON number. The numeric value is modelled by its integer part
(sign applied); fraction and exponent digits are checked for well-formedness
but do not contribute to the value, since no consumer of this model inspects
non-integer numeric values. -/
def scanJNum (l : List Char) : Option (Int × List Char) := do
  let (neg, l1) := match l with
    | '-' :: r => (true, r)
    | _ => (false, l)
  let (intPart, l2) ←
    match l1 with
    | '0' :: r => some ((['0'] : List Char), r)
    | c :: r =>
      if c.isDigit then
        let p := (c :: r).span Char.isDigit
        some (p.1, p.2)
      else none
    | [] => none
  let (fracOk, l3) :=
    match l2 with
    | '.' :: r =>
      let p := r.span Char.isDigit
      (!p.1.isEmpty, p.2)
    | _ => (true, l2)
  if !fracOk then none
  else
    let (expOk, l4) :=
      match l3 with
      | 'e' :: r | 'E' :: r =>
        let r2 := match r with
          | '+' :: r3 => r3
          | '-' :: r3 => r3
          | _ => r
        let p := r2.span Char.isDigit
        (!p.1.isEmpty, p.2)
      | _ => (true, l3)
    if !expOk then none
    else
      let v : Int := Int.ofNat (digitsToNat 0 intPart)
      some (if neg then -v else v, l4)

mutual
/-- Parse one JSON value (fuel-indexed; fuel `length + 1` always suffices,
as every fuel decrement follows the consumption of at least one character). -/
def parseJVal : Nat → List Char → Option (Json × List Char)
  | 0, _ => none
  | fuel+1, l =>
    match skipJWs l with
    | 'n' :: 'u' :: 'l' :: 'l' :: rest => some (.null, rest)
    | 't' :: 'r' :: 'u' :: 'e' :: rest => some (.bool true, rest)
    | 'f' :: 'a' :: 'l' :: 's' :: 'e' :: rest => some (.bool false, rest)
    | '"' :: rest => (scanJStr rest).map (fun p => (.str p.1, p.2))
    | '[' :: rest =>
      (match skipJWs rest with
       | ']' :: rest2 => some (.arr .nil, rest2)
       | l2 => do
         let (v, r) ← parseJVal fuel l2
         parseJArrRest fuel [v] r)
    | '\x7b' :: rest =>
      (match skipJWs rest with
       | '\x7d' :: rest2 => some (.obj .nil, rest2)
       | l2 => do
         let (kv, r) ← parseJMember fuel l2
         parseJObjRest fuel [kv] r)
    | l1 => (scanJNum l1).map (fun p => (.num p.1, p.2))

def parseJArrRest : Nat → List Json → List Char → Option (Json × List Char)
  | 0, _, _ => none
  | fuel+1, acc, l =>
    match skipJWs l with
    | ']' :: rest => some (.arr (jlOf acc.reverse), rest)
    | ',' :: rest => do
      let (v, r) ← parseJVal fuel rest
      parseJArrRest fuel (v :: acc) r
    | _ => none

def parseJMember : Nat → List Char → Option ((List Char × Json) × List Char)
  | 0, _ => none
  | fuel+1, l =>
    match skipJWs l with
    | '"' :: rest => do
      let (k, r) ← scanJStr rest
      match skipJWs r with
      | ':' :: r2 => do
        let (v, r3) ← parseJVal fuel r2
        some ((k, v), r3)
      | _ => none
    | _ => none

def parseJObjRest : Nat → List (List Char × Json) → List Char → Option (Json × List Char)
  | 0, _, _ => none
  | fuel+1, acc, l =>
    match skipJWs l with
    | '\x7d' :: rest => some (.obj (jmOf acc.reverse), rest)
    | ',' :: rest => do
      let (kv, r) ← parseJMember fuel rest
      parseJObjRest fuel (kv :: acc) r
    | _ => none
end

/-- Model of the platform `JSON.parse`: `none` means it throws. -/
def jsonParse (s : List Char) : Option Json :=
  match parseJVal (s.length + 1) s with
  | some (v, rest) => if (skipJWs rest).isEmpty then some v else none
  | none => none

/-- JavaScript truthiness of a JSON value (`NaN` is not representable here). -/
def jsTruthy : Json → Bool
  | .null => false
  | .bool b => b
  | .num n => decide (n ≠ 0)
  | .str s => !s.isEmpty
  | .arr _ => true
  | .obj _ => true

/-- `JSON.stringify` escaping of one character inside a string. -/
def jsonEscChar (c : Char) : List Char :=
  if c = '"' then ['\\', '"']
  else if c = '\\' then ['\\', '\\']
  else if c = '\n' then ['\\', 'n']
  else if c = '\r' then ['\\', 'r']
  else if c = '\t' then ['\\', 't']
  else if c.toNat = 8 then ['\\', 'b']
  else if c.toNat = 12 then ['\\', 'f']
  else if c.toNat < 32 then
    ['\\', 'u', '0', '0',
     (Nat.digitChar (c.toNat / 16)), (Nat.digitChar (c.toNat % 16))]
  else [c]

/-- `JSON.stringify` of a string (quoted, escaped). -/
def jsonQuote (s : List Char) : List Char :=
  '"' :: (s.map jsonEscChar).flatten ++ ['"']

mutual
/-- `JSON.stringify` (no indentation). -/
def strJ : Json → List Char
  | .null => "null".data
  | .bool true => "true".data
  | .bool false => "false".data
  | .num n => (Int.repr n).data
  | .str s => jsonQuote s
  | .arr xs => '[' :: strJL xs ++ [']']
  | .obj kvs => '\x7b' :: strJM kvs ++ ['\x7d']

def strJL : JsonList → List Char
  | .nil => []
  | .cons x .nil => strJ x
  | .cons x (.cons y ys) => strJ x ++ ',' :: strJL (.cons y ys)

def strJM : JsonMembers → List Char
  | .nil => []
  | .cons k v .nil => jsonQuote k ++ ':' :: strJ v
  | .cons k v (.cons k2 v2 m) =>
    (jsonQuote k ++ ':' :: strJ v) ++ ',' :: strJM (.cons k2 v2 m)
end

/-- Serialized text of a JSON value, as stored in the `data` / `tags`
TEXT columns. -/
def jsonTextOf (j : Json) : List Char := strJ j

/-- Comma-join of quoted strings (the interior of a stringified array). -/
def joinQ : List (List Char) → List Char
  | [] => []
  | [s] => jsonQuote s
  | s :: s2 :: rest => jsonQuote s ++ ',' :: joinQ (s2 :: rest)

/-- `JSON.stringify` of a list of strings (the serialized form of a
well-typed `tags` value). -/
def serializeStrList (ss : List (List Char)) : List Char :=
  '[' :: joinQ ss ++ [']']

/-! ### Event store model -/

/-- One row of the `events` table.  `data` and `tags` hold the serialized
TEXT exactly as the relational store does (`NULL` = `none`).  The
ulid-generated `id` is external randomness and is not modelled; no claim
mentions it. -/
structure Event where
  user_id : List Char
  timestamp : Int
  event_type : List Char
  data : Option (List Char)
  tags : Option (List Char)
  source : List Char
  created_at : Int
deriving DecidableEq, Repr

/-! ### Import pipeline -/

/-- Result of an import call: an HTTP-400 style wholesale rejection, or the
`(imported, total, errors)` report. -/
inductive ImportOut where
  | reject (msg : List Char)
  | report (imported : Nat) (total : Nat) (errors : List (List Char))
deriving DecidableEq, Repr

/-- First index of a column name in the header (`header.indexOf(col)`;
`none` models `-1`). -/
def idxOf : List (List Char) → List Char → Option Nat
  | [], _ => none
  | h :: t, col => if h = col then some 0 else (idxOf t col).map (· + 1)

/-- Decode the `data` / `tags` cell of a CSV row: skipped when the column is
absent, the cell is missing, or the cell is empty (falsy); a present
non-empty cell must parse as JSON or the row fails with `msg`. -/
def decodeCell (msg : List Char) (idx : Option Nat) (values : List (List Char)) :
    Except (List Char) (Option Json) :=
  match idx with
  | none => .ok none
  | some j =>
    match values[j]? with
    | none => .ok none
    | some cell =>
      if cell.isEmpty then .ok none
      else
        match jsonParse cell with
        | some v => .ok (some v)
        | none => .error msg

/-- Store the value the way the INSERT binds it:
`data ? JSON.stringify(data) : null` (falsy parse results are stored NULL). -/
def storedText : Option Json → Option (List Char)
  | some v => if jsTruthy v then some (jsonTextOf v) else none
  | none => none

/-- One CSV data row (already trimmed, non-empty) through the import body:
timestamp first, then `data`, then `tags` decoding; the INSERT itself throws
only if the `event_type` cell is missing (binding JS `undefined` to the
prepared statement is a driver type error). -/
def csvRow (dp : DateParse) (now : Int) (uid : List Char) (tIdx eIdx : Nat)
    (dIdx gIdx : Option Nat) (line : List Char) : Except (List Char) Event :=
  let values := parseCSVLine line
  match (match values[tIdx]? with
         | none => Except.error "Invalid timestamp: undefined".data
         | some cell => parseTimestamp dp (.str cell)) with
  | .error m => .error m
  | .ok ts =>
    match decodeCell "Invalid JSON in data column".data dIdx values with
    | .error m => .error m
    | .ok dataV =>
      match decodeCell "Invalid JSON in tags column".data gIdx values with
      | .error m => .error m
      | .ok tagsV =>
        match values[eIdx]? with
        | none => .error "D1_TYPE_ERROR: Type 'undefined' not supported".data
        | some ety =>
          .ok { user_id := uid, timestamp := ts, event_type := ety,
                data := storedText dataV, tags := storedText tagsV,
                source := "csv_import".data, created_at := now }

/-- The CSV import loop over `lines[i..]`: blank lines (after trim) are
skipped; a failing row appends `Line <i+1>: <msg>` and processing continues.
Returns `(success, errors, db)`. -/
def csvLoop (dp : DateParse) (now : Int) (uid : List Char) (tIdx eIdx : Nat)
    (dIdx gIdx : Option Nat) : Nat → List (List Char) → List Event →
    (Nat × List (List Char) × List Event)
  | _, [], db => (0, [], db)
  | i, raw :: rest, db =>
    let line := trimLC raw
    if line.isEmpty then csvLoop dp now uid tIdx eIdx dIdx gIdx (i+1) rest db
    else
      match csvRow dp now uid tIdx eIdx dIdx gIdx line with
      | .ok ev =>
        let out := csvLoop dp now uid tIdx eIdx dIdx gIdx (i+1) rest (db ++ [ev])
        (out.1 + 1, out.2.1, out.2.2)
      | .error m =>
        let out := csvLoop dp now uid tIdx eIdx dIdx gIdx (i+1) rest db
        (out.1, ("Line ".data ++ natChars (i+1) ++ ": ".data ++ m) :: out.2.1, out.2.2)

/-- `POST /import/csv`. -/
def csvImport (dp : DateParse) (now : Int) (uid : List Char) (body : List Char)
    (db : List Event) : ImportOut × List Event :=
  let lines := splitNl (trimLC body)
  if lines.length < 2 then
    (.reject "CSV must have at least a header and one data row".data, db)
  else
    let header := parseCSVLine (lines.headD [])
    if (idxOf header "timestamp".data).isNone then
      (.reject "Missing required column: timestamp".data, db)
    else if (idxOf header "event_type".data).isNone then
      (.reject "Missing required column: event_type".data, db)
    else
      let tIdx := (idxOf header "timestamp".data).getD 0
      let eIdx := (idxOf header "event_type".data).getD 0
      let out := csvLoop dp now uid tIdx eIdx (idxOf header "data".data)
        (idxOf header "tags".data) 1 (lines.drop 1) db
      (.report out.1 (lines.length - 1) out.2.1, out.2.2)

/-- A record of the structured (JSON transport) batch after zod validation:
`timestamp` is a string or number, `data` (if present) is an object,
`tags` (if present) an array of strings. -/
structure JRecord where
  timestamp : TsVal
  event_type : List Char
  data : Option (List (List Char × Json))
  tags : Option (List (List Char))

/-- One structured record through the import body. A validated `data` is an
object and a validated `tags` an array, both always truthy, so
`x ? JSON.stringify(x) : null` stores their serialization whenever present. -/
def jsonRow (dp : DateParse) (now : Int) (uid : List Char) (r : JRecord) :
    Except (List Char) Event :=
  match parseTimestamp dp r.timestamp with
  | .error m => .error m
  | .ok ts =>
    .ok { user_id := uid, timestamp := ts, event_type := r.event_type,
          data := r.data.map (fun kvs => jsonTextOf (.obj (jmOf kvs))),
          tags := r.tags.map serializeStrList,
          source := "json_import".data, created_at := now }

/-- The structured-batch loop: a failing record appends
`Event <i>: <msg>` (`i` is the loop index, starting at 0) and processing
continues. Returns `(success, errors, db)`. -/
def jsonLoop (dp : DateParse) (now : Int) (uid : List Char) :
    Nat → List JRecord → List Event → (Nat × List (List Char) × List Event)
  | _, [], db => (0, [], db)
  | i, r :: rest, db =>
    match jsonRow dp now uid r with
    | .ok ev =>
      let out := jsonLoop dp now uid (i+1) rest (db ++ [ev])
      (out.1 + 1, out.2.1, out.2.2)
    | .error m =>
      let out := jsonLoop dp now uid (i+1) rest db
      (out.1, ("Event ".data ++ natChars i ++ ": ".data ++ m) :: out.2.1, out.2.2)

/-- `POST /import/json` (body already validated by `jsonImportSchema`). -/
def jsonImport (dp : DateParse) (now : Int) (uid : List Char)
    (events : List JRecord) (db : List Event) : ImportOut × List Event :=
  let out := jsonLoop dp now uid 0 events db
  (.report out.1 events.length out.2.1, out.2.2)

/-! ### CSV preview -/

/-- One entry of the preview response's `preview` array. -/
structure Sample where
  line : Nat
  timestamp : List Char
  event_type : List Char
  data : Json
  tags : Json
  error : Option (List Char)

/-- The platform `JSON.parse` SyntaxError message (its exact text is
platform-dependent; nothing downstream inspects it). -/
def jsonErrText : List Char := "Unexpected token in JSON".data

/-- Preview's decoding of the `data` / `tags` cell: like the import's, but
the caught error carries the platform message and the decoded value is kept
as-is (it starts out `null`). -/
def previewCell (idx : Option Nat) (values : List (List Char)) :
    Except (List Char) Json :=
  match idx with
  | none => .ok .null
  | some j =>
    match values[j]? with
    | none => .ok .null
    | some cell =>
      if cell.isEmpty then .ok .null
      else
        match jsonParse cell with
        | some v => .ok v
        | none => .error jsonErrText

/-- One previewed data row (`i` is its 0-based position in `lines`, so the
reported `line` is `i + 1`). -/
def previewRow (tIdx eIdx : Nat) (dIdx gIdx : Option Nat) (i : Nat)
    (line : List Char) : Sample :=
  let values := parseCSVLine line
  match previewCell dIdx values with
  | .error m =>
    { line := i + 1, timestamp := [], event_type := [],
      data := .null, tags := .null, error := some m }
  | .ok d =>
    match previewCell gIdx values with
    | .error m =>
      { line := i + 1, timestamp := [], event_type := [],
        data := .null, tags := .null, error := some m }
    | .ok t =>
      { line := i + 1, timestamp := (values[tIdx]?).getD [],
        event_type := (values[eIdx]?).getD [],
        data := d, tags := t, error := none }

/-- The preview loop (over at most the first 5 data lines); blank lines are
skipped. -/
def prevLoop (tIdx eIdx : Nat) (dIdx gIdx : Option Nat) :
    Nat → List (List Char) → List Sample
  | _, [] => []
  | i, raw :: rest =>
    let line := trimLC raw
    if line.isEmpty then prevLoop tIdx eIdx dIdx gIdx (i+1) rest
    else previewRow tIdx eIdx dIdx gIdx i line :: prevLoop tIdx eIdx dIdx gIdx (i+1) rest

/-- Result of `POST /import/csv/preview`. -/
inductive PrevOut where
  | reject (msg : List Char)
  | invalid (msg : List Char)
  | ok (columns : List (List Char)) (totalRows : Nat) (samples : List Sample)

/-- `POST /import/csv/preview`.  The handler issues no database statement;
the store is threaded through unchanged to make that explicit. -/
def csvPreview (body : List Char) (db : List Event) : PrevOut × List Event :=
  let lines := splitNl (trimLC body)
  if lines.length < 2 then
    (.reject "CSV must have at least a header and one data row".data, db)
  else
    let header := parseCSVLine (lines.headD [])
    let missing := (["timestamp".data, "event_type".data]).filter
      (fun c => (idxOf header c).isNone)
    if !missing.isEmpty then
      (.invalid ("Missing required columns: ".data ++
        List.intercalate ", ".data missing), db)
    else
      let tIdx := (idxOf header "timestamp".data).getD 0
      let eIdx := (idxOf header "event_type".data).getD 0
      let samples := prevLoop tIdx eIdx (idxOf header "data".data)
        (idxOf header "tags".data) 1 ((lines.drop 1).take 5)
      (.ok header (lines.length - 1) samples, db)

/-! ### Event listing (`GET /events`) -/

/-- Query parameters of the list endpoint after zod coercion. -/
structure ListParams where
  eventType : Option (List Char)
  startT : Option Int
  endT : Option Int
  tags : Option (List Char)
  limit : Nat
  offset : Nat

/-- SQLite `LIKE` character comparison: case-insensitive on ASCII letters. -/
def likeEqChar (p c : Char) : Bool := p.toLower == c.toLower

/-- SQLite `LIKE` matching (no ESCAPE clause): `%` matches any sequence
(expressed as a search over all split points), `_` any single character,
anything else one case-insensitively equal character. -/
def likeMatch : List Char → List Char → Bool
  | [], s => s.isEmpty
  | '%' :: ps, s => (List.range (s.length + 1)).any (fun k => likeMatch ps (s.drop k))
  | '_' :: ps, s =>
    (match s with
     | [] => false
     | _ :: cs => likeMatch ps cs)
  | p :: ps, s =>
    (match s with
     | [] => false
     | c :: cs => likeEqChar p c && likeMatch ps cs)

/-- The LIKE pattern `%"tag"%` built for one requested tag. -/
def tagLikePat (t : List Char) : List Char := '%' :: '"' :: (t ++ '"' :: '%' :: [])

/-- The WHERE clause of the list query applied to one row.  JS truthiness
guards each filter (`0`, `''` and absence all skip it); each requested tag
(comma-split, trimmed) must LIKE-match the serialized `tags` TEXT, and a
NULL `tags` column never matches. -/
def evMatches (uid : List Char) (ps : ListParams) (ev : Event) : Bool :=
  decide (ev.user_id = uid) &&
  (match ps.eventType with
   | some s => if s.isEmpty then true else decide (ev.event_type = s)
   | none => true) &&
  (match ps.startT with
   | some n => if n = 0 then true else decide (n ≤ ev.timestamp)
   | none => true) &&
  (match ps.endT with
   | some n => if n = 0 then true else decide (ev.timestamp ≤ n)
   | none => true) &&
  (match ps.tags with
   | some s =>
     if s.isEmpty then true
     else
       ((splitOnC ',' s).map trimLC).all (fun t =>
         match ev.tags with
         | some txt => likeMatch (tagLikePat t) txt
         | none => false)
   | none => true)

/-- Insert into a timestamp-descending list (stable among equal keys). -/
def insertTsDesc (e : Event) : List Event → List Event
  | [] => [e]
  | x :: xs => if x.timestamp < e.timestamp then e :: x :: xs else x :: insertTsDesc e xs

/-- `ORDER BY timestamp DESC` (ties in an unspecified but fixed order). -/
def sortTsDesc (l : List Event) : List Event := l.foldr insertTsDesc []

/-- `GET /events`: WHERE, then ORDER BY timestamp DESC, then
`LIMIT limit OFFSET offset`. -/
def listEvents (uid : List Char) (ps : ListParams) (db : List Event) : List Event :=
  (((db.filter (evMatches uid ps)).foldr insertTsDesc []).drop ps.offset).take ps.limit

/-! ### Derived characterizations and fixed environments used by theorems -/

/-- The `errors` array of an import report (a 400 rejection carries none). -/
def reportErrors : ImportOut → List (List Char)
  | .report _ _ e => e
  | .reject _ => []

/-- The header row an import/preview call parses from a body. -/
def headerOf (body : List Char) : List (List Char) :=
  parseCSVLine ((splitNl (trimLC body)).headD [])

/-- The index of a named column in a body's header. -/
def colIdx (body col : List Char) : Option Nat := idxOf (headerOf body) col

/-- Number of data lines that are blank after trimming (the lines the
CSV import loop skips without counting them as imported or errored). -/
def blankCount (rows : List (List Char)) : Nat :=
  (rows.filter (fun l => (trimLC l).isEmpty)).length

/-- Whether the `data`/`tags` cell at `idx` makes the row fail: the column
exists, the cell is present and non-empty, and it does not parse as JSON. -/
def cellFails (idx : Option Nat) (values : List (List Char)) : Bool :=
  match idx with
  | none => false
  | some j =>
    match values[j]? with
    | none => false
    | some cell => !cell.isEmpty && (jsonParse cell).isNone

/-- Whether the timestamp cell of a CSV row fails normalization (a missing
cell is `undefined`, which `new Date` rejects; a present cell is a string,
so only the `Date` branch of `parseTimestamp` applies). -/
def tsFails (dp : DateParse) (tIdx : Nat) (values : List (List Char)) : Bool :=
  match values[tIdx]? with
  | none => true
  | some cell => (dp cell).isNone

def isErrE {α β : Type} : Except α β → Bool
  | .error _ => true
  | .ok _ => false

/-- Case-sensitive list prefix test. -/
def startsWith : List Char → List Char → Bool
  | [], _ => true
  | _ :: _, [] => false
  | a :: as, b :: bs => a == b && startsWith as bs

/-- Case-insensitive (ASCII) list prefix test, the wildcard-free fragment
of `likeMatch`. -/
def ciPrefix : List Char → List Char → Bool
  | [], _ => true
  | _ :: _, [] => false
  | a :: as, b :: bs => likeEqChar a b && ciPrefix as bs

/-- `n` occurs contiguously (case-sensitively) somewhere in the haystack. -/
def occursIn (n : List Char) : List Char → Bool
  | [] => n.isEmpty
  | c :: t => startsWith n (c :: t) || occursIn n t

/-- Tag characters for which `LIKE`-based filtering is exact: lowercase
ASCII letters and digits (no wildcards, quotes, backslashes, commas, or
case-folding pairs). -/
def tagChar (c : Char) : Bool :=
  (97 ≤ c.toNat && c.toNat ≤ 122) || (48 ≤ c.toNat && c.toNat ≤ 57)

/-- A `Date` environment that rejects every string. -/
def dpNone : DateParse := fun _ => none

/-- A `Date` environment that resolves every string to epoch 0. -/
def dpZero : DateParse := fun _ => some 0

/-- A 51-line CSV body: a valid header followed by 50 identical data rows. -/
def body50 : List Char :=
  "timestamp,event_type".data ++ (List.replicate 50 "\n1,a".data).flatten

/-- A structured record whose timestamp string no `Date` environment that
rejects it can normalize. -/
def badRec : JRecord :=
  { timestamp := .str "nope".data, event_type := "run".data,
    data := none, tags := none }

/-- An event whose stored tag set is exactly `["health"]`. -/
def evHealth : Event :=
  { user_id := "u".data, timestamp := 5, event_type := "a".data,
    data := none, tags := some (serializeStrList ["health".data]),
    source := "manual".data, created_at := 7 }

/-- A list query whose tags filter contains the LIKE wildcard `_`. -/
def psWild : ListParams :=
  { eventType := none, startT := none, endT := none,
    tags := some "h_alth".data, limit := 100, offset := 0 }

/-- An event whose stored tag set is exactly `["health", "am"]`. -/
def evHA : Event :=
  { user_id := "u".data, timestamp := 5, event_type := "a".data,
    data := none, tags := some (serializeStrList ["health".data, "am".data]),
    source := "manual".data, created_at := 7 }

/-- A list query requesting the tags `health` and `am`. -/
def psHA : ListParams :=
  { eventType := none, startT := none, endT := none,
    tags := some "health,am".data, limit := 100, offset := 0 }

end Lifelogs


namespace Lifelogs

/-! ### Loop characterizations -/

/-- The structured-batch loop counts every record exactly once and its
error list is exactly the enumerated failing records, each tagged
`Event <0-based index>: `. -/
theorem jsonLoop_spec (dp : DateParse) (now : Int) (uid : List Char) :
    ∀ (rs : List JRecord) (i : Nat) (db : List Event),
    (jsonLoop dp now uid i rs db).1 + ((jsonLoop dp now uid i rs db).2.1).length = rs.length ∧
    (jsonLoop dp now uid i rs db).2.1 = (List.enumFrom i rs).filterMap (fun p =>
      match jsonRow dp now uid p.2 with
      | .error m => some ("Event ".data ++ natChars p.1 ++ ": ".data ++ m)
      | .ok _ => none) := by
  intro rs
  induction rs with
  | nil => intro i db; simp [jsonLoop, List.enumFrom]
  | cons r rest ih =>
    intro i db
    cases h : jsonRow dp now uid r with
    | ok ev =>
      obtain ⟨h1, h2⟩ := ih (i+1) (db ++ [ev])
      refine ⟨?_, ?_⟩
      · simp only [jsonLoop, h, List.length_cons]
        omega
      · simp only [jsonLoop, h, List.enumFrom, List.filterMap_cons]
        simp [h, h2]
    | error m =>
      obtain ⟨h1, h2⟩ := ih (i+1) db
      refine ⟨?_, ?_⟩
      · simp only [jsonLoop, h, List.length_cons]
        omega
      · simp only [jsonLoop, h, List.enumFrom, List.filterMap_cons]
        simp [h, h2]

/-- The CSV loop counts every non-blank data line exactly once (blank
lines are skipped), and its error list is exactly the enumerated failing
lines, each tagged `Line <index + 1>: `. -/
theorem csvLoop_spec (dp : DateParse) (now : Int) (uid : List Char)
    (tIdx eIdx : Nat) (dIdx gIdx : Option Nat) :
    ∀ (rows : List (List Char)) (i : Nat) (db : List Event),
    (csvLoop dp now uid tIdx eIdx dIdx gIdx i rows db).1 +
      ((csvLoop dp now uid tIdx eIdx dIdx gIdx i rows db).2.1).length +
      blankCount rows = rows.length ∧
    (csvLoop dp now uid tIdx eIdx dIdx gIdx i rows db).2.1 =
      (List.enumFrom i rows).filterMap (fun p =>
        if (trimLC p.2).isEmpty then none
        else
          match csvRow dp now uid tIdx eIdx dIdx gIdx (trimLC p.2) with
          | .error m => some ("Line ".data ++ natChars (p.1 + 1) ++ ": ".data ++ m)
          | .ok _ => none) := by
  intro rows
  induction rows with
  | nil => intro i db; simp [csvLoop, blankCount, List.enumFrom]
  | cons raw rest ih =>
    intro i db
    cases hb : trimLC raw with
    | nil =>
      obtain ⟨h1, h2⟩ := ih (i+1) db
      refine ⟨?_, ?_⟩
      · simp [csvLoop, hb, blankCount] at h1 ⊢
        omega
      · simp only [csvLoop, hb, List.isEmpty_nil, if_true, List.enumFrom,
          List.filterMap_cons]
        simp [hb, h2]
    | cons c cs =>
      cases h : csvRow dp now uid tIdx eIdx dIdx gIdx (c :: cs) with
      | ok ev =>
        obtain ⟨h1, h2⟩ := ih (i+1) (db ++ [ev])
        refine ⟨?_, ?_⟩
        · simp [csvLoop, hb, h, blankCount] at h1 ⊢
          omega
        · simp only [csvLoop, hb, List.isEmpty_cons, if_false, h, List.enumFrom,
            List.filterMap_cons]
          simp [hb, h, h2]
      | error m =>
        obtain ⟨h1, h2⟩ := ih (i+1) db
        refine ⟨?_, ?_⟩
        · simp [csvLoop, hb, h, blankCount] at h1 ⊢
          omega
        · simp only [csvLoop, hb, List.isEmpty_cons, if_false, h, List.enumFrom,
            List.filterMap_cons]
          simp [hb, h, h2]

/-! ### C1 -/

/-- C1 (counterexample): a text-mode batch whose interior contains a blank
line returns `imported = 2, errors = [], total = 3`, so
`imported + len(errors) == total` fails (`2 + 0 ≠ 3`): the blank line is
counted in `total` but neither imported nor errored. -/
theorem csv_blank_line_breaks_invariant :
    (csvImport dpZero 7 "u".data "timestamp,event_type\n1,a\n\n2,b".data []).1 =
      .report 2 3 [] ∧
    ¬(2 + List.length ([] : List (List Char)) = 3) := by decide

/-- C1 (amended): in structured-batch mode `imported + len(errors) == total`
always holds; in text mode `imported + len(errors) + (number of blank data
lines) == total`, so the spec's invariant holds exactly when no data line is
blank after trimming. -/
theorem import_invariant_amended :
    (∀ (dp : DateParse) (now : Int) (uid : List Char) (evs : List JRecord)
       (db : List Event) (i t : Nat) (e : List (List Char)),
      (jsonImport dp now uid evs db).1 = .report i t e → i + e.length = t) ∧
    (∀ (dp : DateParse) (now : Int) (uid body : List Char) (db : List Event)
       (i t : Nat) (e : List (List Char)),
      (csvImport dp now uid body db).1 = .report i t e →
      i + e.length + blankCount ((splitNl (trimLC body)).drop 1) = t) := by
  constructor
  · intro dp now uid evs db i t e h
    have hs := (jsonLoop_spec dp now uid evs 0 db).1
    simp only [jsonImport, ImportOut.report.injEq] at h
    obtain ⟨h1, h2, h3⟩ := h
    subst h1; subst h2; subst h3
    exact hs
  · intro dp now uid body db i t e h
    simp only [csvImport] at h
    split at h
    · cases h
    · split at h
      · cases h
      · split at h
        · cases h
        · simp only [ImportOut.report.injEq] at h
          obtain ⟨h1, h2, h3⟩ := h
          subst h1; subst h2; subst h3
          have hs := (csvLoop_spec dp now uid
            ((idxOf (parseCSVLine ((splitNl (trimLC body)).headD [])) "timestamp".data).getD 0)
            ((idxOf (parseCSVLine ((splitNl (trimLC body)).headD [])) "event_type".data).getD 0)
            (idxOf (parseCSVLine ((splitNl (trimLC body)).headD [])) "data".data)
            (idxOf (parseCSVLine ((splitNl (trimLC body)).headD [])) "tags".data)
            ((splitNl (trimLC body)).drop 1) 1 db).1
          have hlen : ((splitNl (trimLC body)).drop 1).length =
              (splitNl (trimLC body)).length - 1 := by
            simp [List.length_drop]
          rw [hlen] at hs
          exact hs

/-- C1 (witness). -/
theorem import_invariant_amended_witness :
    0 + List.length ([] : List (List Char)) = 0 ∧
    2 + List.length ([] : List (List Char)) +
      blankCount ((splitNl (trimLC "timestamp,event_type\n1,a\n\n2,b".data)).drop 1) = 3 :=
  ⟨import_invariant_amended.1 dpZero 7 "u".data [] [] 0 0 [] (by decide),
   import_invariant_amended.2 dpZero 7 "u".data
     "timestamp,event_type\n1,a\n\n2,b".data [] 2 3 [] (by decide)⟩

/-! ### C2 -/

/-- C2: timestamp normalization scales a number strictly below 10^10 by
×1000, returns a number at or above 10^10 unchanged (boundary treated as
ms), maps `1700000000` to `1700000000000` and leaves `1700000000000`
unchanged, and fails with `Invalid timestamp: <value>` on a string the
`Date` environment cannot resolve. -/
theorem parseTimestamp_spec (dp : DateParse) (n : Int) (s : List Char) :
    (n < 10000000000 → parseTimestamp dp (.num n) = .ok (n * 1000)) ∧
    (10000000000 ≤ n → parseTimestamp dp (.num n) = .ok n) ∧
    parseTimestamp dp (.num 1700000000) = .ok 1700000000000 ∧
    parseTimestamp dp (.num 1700000000000) = .ok 1700000000000 ∧
    (dp s = none → parseTimestamp dp (.str s) =
      .error ("Invalid timestamp: ".data ++ s)) := by
  refine ⟨?_, ?_, rfl, rfl, ?_⟩
  · intro h
    simp [parseTimestamp, h]
  · intro h
    simp [parseTimestamp, not_lt.mpr h]
  · intro h
    simp [parseTimestamp, h]

/-- C2 (witness). -/
theorem parseTimestamp_spec_witness :
    parseTimestamp dpNone (.num 5) = .ok 5000 ∧
    parseTimestamp dpNone (.num 20000000000) = .ok 20000000000 ∧
    parseTimestamp dpNone (.str "not-a-date".data) =
      .error ("Invalid timestamp: ".data ++ "not-a-date".data) :=
  ⟨(parseTimestamp_spec dpNone 5 "not-a-date".data).1 (by decide),
   (parseTimestamp_spec dpNone 20000000000 "not-a-date".data).2.1 (by decide),
   (parseTimestamp_spec dpNone 5 "not-a-date".data).2.2.2.2 rfl⟩

/-! ### C3 -/

/-- C3 (counterexample): in structured mode a failure on the first record is
tagged `Event 0`, a 0-based index, not the claimed 1-based reference
(`Event 1`). -/
theorem json_error_index_zero_based :
    (jsonImport dpNone 7 "u".data [badRec] []).1 =
      .report 0 1 ["Event 0: Invalid timestamp: nope".data] ∧
    startsWith "Event 1".data "Event 0: Invalid timestamp: nope".data = false := by
  decide

/-- C3 (amended): every per-record failure is recorded and processing
continues — the error list is exactly the enumeration of the failing
records; in text mode entries are tagged `Line <physical line>` with the
header as line 1 (data row k is line k+1), while in structured mode entries
are tagged `Event <0-based record index>` (the first record is `Event 0`). -/
theorem import_error_tagging_amended :
    (∀ (dp : DateParse) (now : Int) (uid : List Char) (evs : List JRecord)
       (db : List Event),
      reportErrors (jsonImport dp now uid evs db).1 =
        (List.enumFrom 0 evs).filterMap (fun p =>
          match jsonRow dp now uid p.2 with
          | .error m => some ("Event ".data ++ natChars p.1 ++ ": ".data ++ m)
          | .ok _ => none)) ∧
    (∀ (dp : DateParse) (now : Int) (uid body : List Char) (db : List Event)
       (i t : Nat) (e : List (List Char)),
      (csvImport dp now uid body db).1 = .report i t e →
      e = (List.enumFrom 1 ((splitNl (trimLC body)).drop 1)).filterMap (fun p =>
        if (trimLC p.2).isEmpty then none
        else
          match csvRow dp now uid ((colIdx body "timestamp".data).getD 0)
              ((colIdx body "event_type".data).getD 0)
              (colIdx body "data".data) (colIdx body "tags".data) (trimLC p.2) with
          | .error m => some ("Line ".data ++ natChars (p.1 + 1) ++ ": ".data ++ m)
          | .ok _ => none)) := by
  constructor
  · intro dp now uid evs db
    have hs := (jsonLoop_spec dp now uid evs 0 db).2
    simp only [jsonImport, reportErrors]
    exact hs
  · intro dp now uid body db i t e h
    simp only [csvImport] at h
    split at h
    · cases h
    · split at h
      · cases h
      · split at h
        · cases h
        · simp only [ImportOut.report.injEq] at h
          obtain ⟨h1, h2, h3⟩ := h
          subst h3
          have hs := (csvLoop_spec dp now uid
            ((idxOf (parseCSVLine ((splitNl (trimLC body)).headD [])) "timestamp".data).getD 0)
            ((idxOf (parseCSVLine ((splitNl (trimLC body)).headD [])) "event_type".data).getD 0)
            (idxOf (parseCSVLine ((splitNl (trimLC body)).headD [])) "data".data)
            (idxOf (parseCSVLine ((splitNl (trimLC body)).headD [])) "tags".data)
            ((splitNl (trimLC body)).drop 1) 1 db).2
          exact hs

/-- C3 (witness). -/
theorem import_error_tagging_amended_witness :
    reportErrors (jsonImport dpNone 7 "u".data [badRec] []).1 =
      (List.enumFrom 0 [badRec]).filterMap (fun p =>
        match jsonRow dpNone 7 "u".data p.2 with
        | .error m => some ("Event ".data ++ natChars p.1 ++ ": ".data ++ m)
        | .ok _ => none) ∧
    ["Line 2: Invalid timestamp: not-a-date".data] =
      (List.enumFrom 1 ((splitNl (trimLC "timestamp,event_type\nnot-a-date,run".data)).drop 1)).filterMap
        (fun p =>
          if (trimLC p.2).isEmpty then none
          else
            match csvRow dpNone 7 "u".data
                ((colIdx "timestamp,event_type\nnot-a-date,run".data "timestamp".data).getD 0)
                ((colIdx "timestamp,event_type\nnot-a-date,run".data "event_type".data).getD 0)
                (colIdx "timestamp,event_type\nnot-a-date,run".data "data".data)
                (colIdx "timestamp,event_type\nnot-a-date,run".data "tags".data) (trimLC p.2) with
            | .error m => some ("Line ".data ++ natChars (p.1 + 1) ++ ": ".data ++ m)
            | .ok _ => none) :=
  ⟨import_error_tagging_amended.1 dpNone 7 "u".data [badRec] [],
   import_error_tagging_amended.2 dpNone 7 "u".data
     "timestamp,event_type\nnot-a-date,run".data [] 0 1
     ["Line 2: Invalid timestamp: not-a-date".data] (by decide)⟩

/-! ### C8 -/

/-- C8: if the header lacks `timestamp` or `event_type`, the whole text-mode
batch is rejected with a single request-level error before any row runs,
and the event store is unchanged. -/
theorem csv_missing_column (dp : DateParse) (now : Int) (uid body : List Char)
    (db : List Event)
    (h : idxOf (headerOf body) "timestamp".data = none ∨
         idxOf (headerOf body) "event_type".data = none) :
    ∃ m, csvImport dp now uid body db = (.reject m, db) := by
  simp only [csvImport]
  split
  · exact ⟨_, rfl⟩
  · split
    · exact ⟨_, rfl⟩
    · next ht =>
      split
      · exact ⟨_, rfl⟩
      · next he =>
        exfalso
        simp only [headerOf] at h
        rcases h with h | h
        · exact ht (by simpa using congrArg Option.isNone h)
        · exact he (by simpa using congrArg Option.isNone h)

/-- C8 (witness). -/
theorem csv_missing_column_witness :
    ∃ m, csvImport dpZero 7 "u".data "a,b\n1,2".data [] = (.reject m, []) :=
  csv_missing_column dpZero 7 "u".data "a,b\n1,2".data [] (.inl (by decide))

/-! ### C10 -/

/-- `split` produces one more segment than there are separators. -/
theorem splitOnC_length (sep : Char) :
    ∀ l : List Char, (splitOnC sep l).length = l.count sep + 1 := by
  intro l
  induction l with
  | nil => simp [splitOnC]
  | cons c rest ih =>
    by_cases hc : c = sep
    · simp [splitOnC, hc, ih]
    · cases hsp : splitOnC sep rest with
      | nil => rw [hsp] at ih; simp at ih
      | cons g t =>
        rw [hsp] at ih
        simp only [splitOnC, hc, if_false, hsp]
        simp only [List.length_cons] at ih ⊢
        have : rest.count sep = (c :: rest).count sep := by
          simp [List.count_cons, hc]
        omega

/-- C10: a text-mode body that trims to fewer than two newline-separated
lines is rejected wholesale (same message on import and preview) and no
event is inserted. -/
theorem csv_short_body_rejected (dp : DateParse) (now : Int) (uid body : List Char)
    (db db2 : List Event) (h : '\n' ∉ trimLC body) :
    csvImport dp now uid body db =
      (.reject "CSV must have at least a header and one data row".data, db) ∧
    csvPreview body db2 =
      (.reject "CSV must have at least a header and one data row".data, db2) := by
  have hc : (trimLC body).count '\n' = 0 := List.count_eq_zero.mpr h
  have hlen : (splitNl (trimLC body)).length = 1 := by
    simp [splitNl, splitOnC_length, hc]
  constructor
  · simp [csvImport, hlen]
  · simp [csvPreview, hlen]

/-- C10 (witness). -/
theorem csv_short_body_rejected_witness :
    csvImport dpZero 7 "u".data "  ".data [] =
      (.reject "CSV must have at least a header and one data row".data, []) ∧
    csvPreview "  ".data [] =
      (.reject "CSV must have at least a header and one data row".data, []) :=
  csv_short_body_rejected dpZero 7 "u".data "  ".data [] [] (by decide)

/-! ### C9 -/

/-- The preview loop emits at most one sample per input line. -/
theorem prevLoop_length_le (tIdx eIdx : Nat) (dIdx gIdx : Option Nat) :
    ∀ (rows : List (List Char)) (i : Nat),
    (prevLoop tIdx eIdx dIdx gIdx i rows).length ≤ rows.length := by
  intro rows
  induction rows with
  | nil => intro i; simp [prevLoop]
  | cons raw rest ih =>
    intro i
    by_cases hb : (trimLC raw).isEmpty
    · simp only [prevLoop, hb, if_true]
      exact Nat.le_succ_of_le (ih (i+1))
    · simp only [prevLoop, hb, if_false, List.length_cons]
      exact Nat.succ_le_succ (ih (i+1))

/-- C9: on any text-mode input with a valid header, preview leaves the
event store untouched, returns the full detected column list and the data
line count of the entire input as `total_rows`, and returns at most 5
sample rows; on a 50-row file it returns exactly 5 samples with
`total_rows = 50`. -/
theorem csv_preview_spec :
    (∀ (body : List Char) (db : List Event) (tI eI : Nat),
      2 ≤ (splitNl (trimLC body)).length →
      idxOf (headerOf body) "timestamp".data = some tI →
      idxOf (headerOf body) "event_type".data = some eI →
      ∃ smp, csvPreview body db =
          (.ok (headerOf body) ((splitNl (trimLC body)).length - 1) smp, db) ∧
        smp.length ≤ 5) ∧
    (match (csvPreview body50 []).1 with
     | .ok _ tr smp => (tr, smp.length)
     | _ => (0, 0)) = (50, 5) ∧
    (csvPreview body50 []).2 = [] := by
  refine ⟨?_, by decide, by decide⟩
  intro body db tI eI hl ht he
  simp only [csvPreview]
  split
  · omega
  · split
    · next hm =>
      exfalso
      have ht2 : idxOf (parseCSVLine ((splitNl (trimLC body)).head?.getD []))
          "timestamp".data = some tI := by simpa [headerOf] using ht
      have he2 : idxOf (parseCSVLine ((splitNl (trimLC body)).head?.getD []))
          "event_type".data = some eI := by simpa [headerOf] using he
      simp [ht2, he2] at hm
    · refine ⟨prevLoop ((idxOf (headerOf body) "timestamp".data).getD 0)
        ((idxOf (headerOf body) "event_type".data).getD 0)
        (idxOf (headerOf body) "data".data) (idxOf (headerOf body) "tags".data) 1
        ((List.drop 1 (splitNl (trimLC body))).take 5), rfl, ?_⟩
      calc (prevLoop ((idxOf (headerOf body) "timestamp".data).getD 0)
            ((idxOf (headerOf body) "event_type".data).getD 0)
            (idxOf (headerOf body) "data".data) (idxOf (headerOf body) "tags".data) 1
            ((List.drop 1 (splitNl (trimLC body))).take 5)).length
          ≤ ((List.drop 1 (splitNl (trimLC body))).take 5).length :=
            prevLoop_length_le _ _ _ _ _ 1
        _ ≤ 5 := by simp [List.length_take]

/-- C9 (witness). -/
theorem csv_preview_spec_witness :
    ∃ smp, csvPreview "timestamp,event_type\n1,a".data [] =
        (.ok (headerOf "timestamp,event_type\n1,a".data)
          ((splitNl (trimLC "timestamp,event_type\n1,a".data)).length - 1) smp, []) ∧
      smp.length ≤ 5 :=
  csv_preview_spec.1 "timestamp,event_type\n1,a".data [] 0 1
    (by decide) (by decide) (by decide)

/-! ### C5 and C6 : per-cell and per-row characterizations -/

/-- Preview's cell decode fails exactly under `cellFails`. -/
theorem previewCell_err (idx : Option Nat) (values : List (List Char)) :
    isErrE (previewCell idx values) = cellFails idx values := by
  cases idx with
  | none => simp [previewCell, cellFails, isErrE]
  | some j =>
    cases hg : values[j]? with
    | none => simp [previewCell, cellFails, isErrE, hg]
    | some cell =>
      by_cases hce : cell.isEmpty
      · simp [previewCell, cellFails, isErrE, hg, hce]
      · cases hp : jsonParse cell with
        | none => simp [previewCell, cellFails, isErrE, hg, hce, hp]
        | some v => simp [previewCell, cellFails, isErrE, hg, hce, hp]

/-- The import's cell decode fails exactly under `cellFails`. -/
theorem decodeCell_err (msg : List Char) (idx : Option Nat)
    (values : List (List Char)) :
    isErrE (decodeCell msg idx values) = cellFails idx values := by
  cases idx with
  | none => simp [decodeCell, cellFails, isErrE]
  | some j =>
    cases hg : values[j]? with
    | none => simp [decodeCell, cellFails, isErrE, hg]
    | some cell =>
      by_cases hce : cell.isEmpty
      · simp [decodeCell, cellFails, isErrE, hg, hce]
      · cases hp : jsonParse cell with
        | none => simp [decodeCell, cellFails, isErrE, hg, hce, hp]
        | some v => simp [decodeCell, cellFails, isErrE, hg, hce, hp]

/-- A preview sample carries an error exactly when the data or tags cell
fails to decode. -/
theorem previewRow_err (tIdx eIdx : Nat) (dIdx gIdx : Option Nat) (i : Nat)
    (line : List Char) :
    (previewRow tIdx eIdx dIdx gIdx i line).error.isSome =
      (cellFails dIdx (parseCSVLine line) || cellFails gIdx (parseCSVLine line)) := by
  have hd := previewCell_err dIdx (parseCSVLine line)
  have hg := previewCell_err gIdx (parseCSVLine line)
  cases hdc : previewCell dIdx (parseCSVLine line) with
  | error m =>
    rw [hdc] at hd
    simp [previewRow, hdc, ← hd, isErrE]
  | ok d =>
    rw [hdc] at hd
    cases hgc : previewCell gIdx (parseCSVLine line) with
    | error m =>
      rw [hgc] at hg
      simp [previewRow, hdc, hgc, ← hd, ← hg, isErrE]
    | ok t =>
      rw [hgc] at hg
      simp [previewRow, hdc, hgc, ← hd, ← hg, isErrE]

/-- A CSV import row fails exactly when the timestamp fails to normalize,
a data/tags cell fails to decode, or the `event_type` cell is missing. -/
theorem csvRow_err (dp : DateParse) (now : Int) (uid : List Char)
    (tIdx eIdx : Nat) (dIdx gIdx : Option Nat) (line : List Char) :
    isErrE (csvRow dp now uid tIdx eIdx dIdx gIdx line) =
      (tsFails dp tIdx (parseCSVLine line) ||
       cellFails dIdx (parseCSVLine line) ||
       cellFails gIdx (parseCSVLine line) ||
       ((parseCSVLine line)[eIdx]?).isNone) := by
  have hd := decodeCell_err "Invalid JSON in data column".data dIdx (parseCSVLine line)
  have hg := decodeCell_err "Invalid JSON in tags column".data gIdx (parseCSVLine line)
  cases ht : (parseCSVLine line)[tIdx]? with
  | none => simp [csvRow, ht, tsFails, isErrE]
  | some tc =>
    cases hdp : dp tc with
    | none => simp [csvRow, ht, hdp, tsFails, parseTimestamp, isErrE]
    | some t0 =>
      cases hdc : decodeCell "Invalid JSON in data column".data dIdx (parseCSVLine line) with
      | error m =>
        rw [hdc] at hd
        simp [csvRow, ht, hdp, tsFails, parseTimestamp, hdc, ← hd, isErrE]
      | ok dataV =>
        rw [hdc] at hd
        cases hgc : decodeCell "Invalid JSON in tags column".data gIdx (parseCSVLine line) with
        | error m =>
          rw [hgc] at hg
          simp [csvRow, ht, hdp, tsFails, parseTimestamp, hdc, hgc, ← hd, ← hg, isErrE]
        | ok tagsV =>
          rw [hgc] at hg
          cases he : (parseCSVLine line)[eIdx]? with
          | none =>
            simp [csvRow, ht, hdp, tsFails, parseTimestamp, hdc, hgc, ← hd, ← hg, he, isErrE]
          | some ety =>
            simp [csvRow, ht, hdp, tsFails, parseTimestamp, hdc, hgc, ← hd, ← hg, he, isErrE]

/-! ### C5 -/

/-- C5 (counterexample): a row whose timestamp does not normalize is a
recorded error in text-mode import but preview reports no error for the
same row — preview does not run timestamp normalization. -/
theorem preview_misses_timestamp_errors :
    (csvImport dpNone 7 "u".data "timestamp,event_type\nnot-a-date,run".data []).1 =
      .report 0 1 ["Line 2: Invalid timestamp: not-a-date".data] ∧
    (csvPreview "timestamp,event_type\nnot-a-date,run".data []).1 =
      .ok ["timestamp".data, "event_type".data] 1
        [{ line := 2, timestamp := "not-a-date".data, event_type := "run".data,
           data := .null, tags := .null, error := none }] :=
  ⟨by decide, rfl⟩

/-- C5 (amended): preview runs only the embedded data/tags decoding of a
text-mode row, not timestamp normalization: a previewed row carries an
error iff a non-empty `data`/`tags` cell fails to decode, while import
records an error iff the timestamp fails, a cell fails to decode, or the
`event_type` cell is missing — so the two agree exactly on rows whose
timestamp normalizes and which have an `event_type` cell. -/
theorem preview_vs_import_rows_amended (dp : DateParse) (now : Int)
    (uid : List Char) (tIdx eIdx : Nat) (dIdx gIdx : Option Nat) (i : Nat)
    (line : List Char) :
    ((previewRow tIdx eIdx dIdx gIdx i line).error.isSome =
      (cellFails dIdx (parseCSVLine line) || cellFails gIdx (parseCSVLine line))) ∧
    (isErrE (csvRow dp now uid tIdx eIdx dIdx gIdx line) =
      (tsFails dp tIdx (parseCSVLine line) ||
       cellFails dIdx (parseCSVLine line) ||
       cellFails gIdx (parseCSVLine line) ||
       ((parseCSVLine line)[eIdx]?).isNone)) ∧
    (tsFails dp tIdx (parseCSVLine line) = false →
     ((parseCSVLine line)[eIdx]?).isNone = false →
     isErrE (csvRow dp now uid tIdx eIdx dIdx gIdx line) =
       (previewRow tIdx eIdx dIdx gIdx i line).error.isSome) := by
  refine ⟨previewRow_err tIdx eIdx dIdx gIdx i line,
    csvRow_err dp now uid tIdx eIdx dIdx gIdx line, ?_⟩
  intro h1 h2
  rw [csvRow_err dp now uid tIdx eIdx dIdx gIdx line,
    previewRow_err tIdx eIdx dIdx gIdx i line, h1, h2]
  simp

/-- C5 (witness). -/
theorem preview_vs_import_rows_amended_witness :
    isErrE (csvRow dpZero 7 "u".data 0 1 none none "1,a".data) =
      (previewRow 0 1 none none 1 "1,a".data).error.isSome :=
  (preview_vs_import_rows_amended dpZero 7 "u".data 0 1 none none 1
    "1,a".data).2.2 (by decide) (by decide)

/-! ### C6 -/

/-- C6 (counterexample): a non-empty `data` cell holding `42` — valid JSON
but not an object — is not a row error: the row imports, the report shows
`imported = 1, errors = []`, and the serialized value `42` is stored. -/
theorem csv_nonobject_data_accepted :
    csvImport dpZero 7 "u".data "timestamp,event_type,data\n1,a,42".data [] =
      (.report 1 1 [],
       [{ user_id := "u".data, timestamp := 0, event_type := "a".data,
          data := some "42".data, tags := none,
          source := "csv_import".data, created_at := 7 }]) ∧
    jsonParse "42".data = some (.num 42) :=
  ⟨by decide, rfl⟩

/-- C6 (amended): a non-empty `data`/`tags` cell is a row error iff it
fails to parse as JSON at all; any successfully parsed value — object or
not for `data`, array or not for `tags` — is accepted for insertion
(no shape check). -/
theorem csv_cell_validation_amended (dp : DateParse) (now : Int)
    (uid : List Char) (tIdx eIdx : Nat) (dIdx gIdx : Option Nat) (j : Nat)
    (line cell : List Char) (v : Json)
    (hcell : (parseCSVLine line)[j]? = some cell)
    (hne : cell.isEmpty = false)
    (hts : tsFails dp tIdx (parseCSVLine line) = false) :
    (jsonParse cell = none →
      csvRow dp now uid tIdx eIdx (some j) gIdx line =
        .error "Invalid JSON in data column".data) ∧
    (cellFails dIdx (parseCSVLine line) = false → jsonParse cell = none →
      csvRow dp now uid tIdx eIdx dIdx (some j) line =
        .error "Invalid JSON in tags column".data) ∧
    (jsonParse cell = some v →
      isErrE (csvRow dp now uid tIdx eIdx (some j) gIdx line) =
        (cellFails gIdx (parseCSVLine line) ||
         ((parseCSVLine line)[eIdx]?).isNone)) := by
  obtain ⟨tc, htc, t0, ht0⟩ :
      ∃ tc, (parseCSVLine line)[tIdx]? = some tc ∧ ∃ t0, dp tc = some t0 := by
    revert hts
    cases ht : (parseCSVLine line)[tIdx]? with
    | none => simp [tsFails, ht]
    | some tc =>
      cases hdp : dp tc with
      | none => simp [tsFails, ht, hdp]
      | some t0 => exact fun _ => ⟨tc, rfl, t0, hdp⟩
  refine ⟨?_, ?_, ?_⟩
  · intro hp
    have hdf : decodeCell "Invalid JSON in data column".data (some j) (parseCSVLine line) =
        .error "Invalid JSON in data column".data := by
      simp [decodeCell, hcell, hne, hp]
    simp [csvRow, htc, ht0, parseTimestamp, hdf]
  · intro hdok hp
    have hgf : decodeCell "Invalid JSON in tags column".data (some j) (parseCSVLine line) =
        .error "Invalid JSON in tags column".data := by
      simp [decodeCell, hcell, hne, hp]
    cases hdc : decodeCell "Invalid JSON in data column".data dIdx (parseCSVLine line) with
    | error m =>
      exfalso
      have hd := decodeCell_err "Invalid JSON in data column".data dIdx (parseCSVLine line)
      rw [hdc, hdok] at hd
      simp [isErrE] at hd
    | ok dataV =>
      simp [csvRow, htc, ht0, parseTimestamp, hdc, hgf]
  · intro hp
    have hmain := csvRow_err dp now uid tIdx eIdx (some j) gIdx line
    have hcf : cellFails (some j) (parseCSVLine line) = false := by
      simp [cellFails, hcell, hne, hp]
    rw [hts, hcf] at hmain
    simpa using hmain

/-- C6 (witness). -/
theorem csv_cell_validation_amended_witness :
    csvRow dpZero 7 "u".data 0 1 (some 2) none "1,a,nope".data =
      .error "Invalid JSON in data column".data :=
  (csv_cell_validation_amended dpZero 7 "u".data 0 1 none none 2
    "1,a,nope".data "nope".data .null (by decide) (by decide) (by decide)).1 rfl

/-! ### C7 -/

/-- `trimEnd` is right-trimming, i.e. Mathlib's `rdropWhile`. -/
theorem trimEnd_eq_rdropWhile (l : List Char) :
    trimEnd l = List.rdropWhile jsWs l := rfl

/-- A non-empty left-trimmed list starts with a non-whitespace character. -/
theorem trimStart_head_not_ws :
    ∀ (x : List Char) (c : Char) (cs : List Char),
    trimStart x = c :: cs → jsWs c = false := by
  intro x
  induction x with
  | nil => intro c cs h; simp [trimStart] at h
  | cons a as ih =>
    intro c cs h
    by_cases ha : jsWs a
    · rw [trimStart, List.dropWhile_cons, if_pos ha] at h
      exact ih c cs h
    · rw [trimStart, List.dropWhile_cons, if_neg ha] at h
      cases h
      simpa using ha

/-- A fully trimmed list is left-trim fixed. -/
theorem trimStart_trimLC (x : List Char) : trimStart (trimLC x) = trimLC x := by
  rw [trimLC]
  cases h : trimStart x with
  | nil => simp [trimEnd, trimStart]
  | cons c cs =>
    have hc : jsWs c = false := trimStart_head_not_ws x c cs h
    have hpre : trimEnd (c :: cs) <+: (c :: cs) := by
      rw [trimEnd_eq_rdropWhile]
      exact List.rdropWhile_prefix jsWs (c :: cs)
    cases he : trimEnd (c :: cs) with
    | nil => simp [trimStart]
    | cons d ds =>
      rw [he] at hpre
      obtain ⟨t, ht⟩ := hpre
      have hd : d = c := by
        have := congrArg (fun l => l.head?) ht
        simpa using this
      subst hd
      simp [trimStart, List.dropWhile_cons, hc]

/-- A fully trimmed list is right-trim fixed. -/
theorem trimEnd_trimLC (x : List Char) : trimEnd (trimLC x) = trimLC x := by
  rw [trimLC, trimEnd_eq_rdropWhile, trimEnd_eq_rdropWhile]
  exact List.rdropWhile_idempotent jsWs (trimStart x)

/-- Every field the CSV line scanner emits is the `trim()` of something. -/
theorem csvLineGo_fields :
    ∀ (inQ : Bool) (cur l f : List Char),
    f ∈ csvLineGo inQ cur l → ∃ x, f = trimLC x := by
  intro inQ cur l
  induction inQ, cur, l using csvLineGo.induct with
  | case1 inQ cur =>
    intro f hf
    simp only [csvLineGo, List.mem_singleton] at hf
    exact ⟨_, hf⟩
  | case2 cur rest2 ih =>
    intro f hf
    simp only [csvLineGo, if_pos] at hf
    exact ih f hf
  | case3 inQ cur rest2 hq ih =>
    intro f hf
    rw [Bool.not_eq_true] at hq
    subst hq
    simp only [csvLineGo, Bool.false_eq_true, if_false] at hf
    exact ih f hf
  | case4 inQ cur rest hne ih =>
    intro f hf
    rw [csvLineGo.eq_3 inQ cur rest hne] at hf
    exact ih f hf
  | case5 cur rest ih =>
    intro f hf
    simp only [csvLineGo, if_pos] at hf
    exact ih f hf
  | case6 inQ cur rest hq ih =>
    intro f hf
    rw [Bool.not_eq_true] at hq
    subst hq
    simp only [csvLineGo, Bool.false_eq_true, if_false, List.mem_cons] at hf
    rcases hf with hf | hf
    · exact ⟨_, hf⟩
    · exact ih f hf
  | case7 inQ cur c rest hc1 hc2 hc3 ih =>
    intro f hf
    rw [csvLineGo.eq_5 inQ cur c rest hc1 hc2 hc3] at hf
    exact ih f hf

/-- C7: `parseLine` keeps quoted commas, collapses doubled quotes inside a
quoted field to one literal quote, and trims surrounding whitespace from
field text: the two specified examples hold, and every emitted field is
trim-fixed on both ends. -/
theorem parseCSVLine_spec :
    parseCSVLine "a,\"b,c\",d".data = ["a".data, "b,c".data, "d".data] ∧
    parseCSVLine "a,\"b\"\"c\",d".data = ["a".data, "b\"c".data, "d".data] ∧
    (∀ (line f : List Char), f ∈ parseCSVLine line →
      trimStart f = f ∧ trimEnd f = f) := by
  refine ⟨by decide, by decide, ?_⟩
  intro line f hf
  obtain ⟨x, rfl⟩ := csvLineGo_fields false [] line f hf
  exact ⟨trimStart_trimLC x, trimEnd_trimLC x⟩

/-- C7 (witness). -/
theorem parseCSVLine_spec_witness :
    trimStart "a".data = "a".data ∧ trimEnd "a".data = "a".data :=
  parseCSVLine_spec.2.2 "a, b ".data "a".data (by decide)

/-! ### C4: the `LIKE`-based tags filter -/

/-- Numeric range of a tag character. -/
theorem tagChar_toNat (c : Char) (h : tagChar c = true) :
    (97 ≤ c.toNat ∧ c.toNat ≤ 122) ∨ (48 ≤ c.toNat ∧ c.toNat ≤ 57) := by
  unfold tagChar at h
  simpa using h

/-- A tag character is distinct from every character outside its range. -/
theorem tagChar_ne (c : Char) (h : tagChar c = true) (d : Char)
    (hd : ¬((97 ≤ d.toNat ∧ d.toNat ≤ 122) ∨ (48 ≤ d.toNat ∧ d.toNat ≤ 57))) :
    c ≠ d :=
  fun heq => hd (heq ▸ tagChar_toNat c h)

/-- ASCII case folding fixes tag characters. -/
theorem tagChar_toLower (c : Char) (h : tagChar c = true) : c.toLower = c := by
  have hr := tagChar_toNat c h
  unfold Char.toLower
  rw [if_neg]
  omega

/-- Case-insensitive character comparison is plain equality on
fold-fixed characters. -/
theorem likeEqChar_fixed (a b : Char) (ha : a.toLower = a) (hb : b.toLower = b) :
    likeEqChar a b = (a == b) := by
  simp [likeEqChar, ha, hb]

/-- `%` at the head of a pattern searches over all drops. -/
theorem likeMatch_pct (ps s : List Char) :
    likeMatch ('%' :: ps) s = true ↔ ∃ k, likeMatch ps (s.drop k) = true := by
  rw [likeMatch.eq_2]
  simp only [List.any_eq_true, List.mem_range]
  constructor
  · rintro ⟨k, _, hk⟩
    exact ⟨k, hk⟩
  · rintro ⟨k, hk⟩
    by_cases hlt : k < s.length + 1
    · exact ⟨k, hlt, hk⟩
    · refine ⟨s.length, by omega, ?_⟩
      rw [List.drop_length]
      rw [List.drop_eq_nil_of_le (by omega)] at hk
      exact hk

/-- A wildcard-free pattern followed by `%` matches iff the pattern is a
case-insensitive prefix. -/
theorem likeMatch_pfx :
    ∀ (n : List Char), '%' ∉ n → '_' ∉ n →
    ∀ (s : List Char), likeMatch (n ++ ['%']) s = ciPrefix n s := by
  intro n
  induction n with
  | nil =>
    intro _ _ s
    rw [List.nil_append, likeMatch.eq_2]
    have hci : ciPrefix [] s = true := rfl
    rw [hci, List.any_eq_true]
    exact ⟨s.length, List.mem_range.mpr (by omega),
      by rw [List.drop_length]; rfl⟩
  | cons c n' ih =>
    intro hp hu s
    have hcp : c = '%' → False := fun h => hp (h ▸ List.mem_cons_self c n')
    have hcu : c = '_' → False := fun h => hu (h ▸ List.mem_cons_self c n')
    have hp' : '%' ∉ n' := fun h => hp (List.mem_cons_of_mem c h)
    have hu' : '_' ∉ n' := fun h => hu (List.mem_cons_of_mem c h)
    cases s with
    | nil =>
      rw [List.cons_append, likeMatch.eq_5 c (n' ++ ['%']) hcp hcu]
      simp [ciPrefix]
    | cons b bs =>
      rw [List.cons_append, likeMatch.eq_6 c (n' ++ ['%']) b bs hcp hcu]
      simp only [ciPrefix]
      rw [ih hp' hu' bs]

/-- All characters of a tame-quoted string are fold-fixed. -/
theorem jsonEscChar_tame (c : Char) (h : tagChar c = true) :
    jsonEscChar c = [c] := by
  have hr := tagChar_toNat c h
  have hch := tagChar_ne c h
  have h32 : ¬(c.toNat < 32) := by omega
  unfold jsonEscChar
  rw [if_neg (hch '"' (by decide)), if_neg (hch '\\' (by decide)),
    if_neg (hch '\n' (by decide)), if_neg (hch '\r' (by decide)),
    if_neg (hch '\t' (by decide)), if_neg (by omega : ¬c.toNat = 8),
    if_neg (by omega : ¬c.toNat = 12), if_neg h32]

/-- Escaping is the identity on tame strings. -/
theorem flatten_escape_tame :
    ∀ s : List Char, (∀ x ∈ s, tagChar x = true) →
    (s.map jsonEscChar).flatten = s := by
  intro s
  induction s with
  | nil => intro _; rfl
  | cons c cs ih =>
    intro h
    rw [List.map_cons, List.flatten_cons, jsonEscChar_tame c (h c (by simp)),
      ih (fun x hx => h x (List.mem_cons_of_mem c hx))]
    rfl

/-- `JSON.stringify` of a tame string is plain quoting, no escapes. -/
theorem jsonQuote_tame (s : List Char) (h : s.all tagChar = true) :
    jsonQuote s = '"' :: s ++ ['"'] := by
  unfold jsonQuote
  rw [flatten_escape_tame s (List.all_eq_true.mp h)]

/-- All characters of a tame quoted string are fold-fixed. -/
theorem jsonQuote_chars (s : List Char) (h : s.all tagChar = true) :
    ∀ c ∈ jsonQuote s, c.toLower = c := by
  intro c hc
  rw [jsonQuote_tame s h] at hc
  rcases List.mem_cons.mp hc with rfl | hc
  · decide
  · rcases List.mem_append.mp hc with hc | hc
    · refine tagChar_toLower c ?_
      rw [List.all_eq_true] at h
      exact h c hc
    · rcases List.mem_singleton.mp hc with rfl
      decide

/-- All characters of the joined quoted tags are fold-fixed. -/
theorem joinQ_chars :
    ∀ (ss : List (List Char)), (∀ s ∈ ss, s.all tagChar = true) →
    ∀ c ∈ joinQ ss, c.toLower = c := by
  intro ss
  induction ss with
  | nil => intro _ c hc; simp [joinQ] at hc
  | cons a rest ih =>
    intro hss c hc
    cases rest with
    | nil =>
      exact jsonQuote_chars a (hss a (by simp)) c hc
    | cons b rs =>
      rw [show joinQ (a :: b :: rs) = jsonQuote a ++ ',' :: joinQ (b :: rs) from rfl] at hc
      rcases List.mem_append.mp hc with hc | hc
      · exact jsonQuote_chars a (hss a (by simp)) c hc
      · rcases List.mem_cons.mp hc with rfl | hc
        · decide
        · exact ih (fun s hs => hss s (List.mem_cons_of_mem a hs)) c hc

/-- Every character of the serialized tag list is fold-fixed when the tags
are tame. -/
theorem serializeStrList_fixed (ss : List (List Char))
    (hss : ∀ s ∈ ss, s.all tagChar = true) :
    ∀ c ∈ serializeStrList ss, c.toLower = c := by
  intro c hc
  unfold serializeStrList at hc
  rcases List.mem_cons.mp hc with rfl | hc
  · decide
  · rcases List.mem_append.mp hc with hc | hc
    · exact joinQ_chars ss hss c hc
    · rcases List.mem_singleton.mp hc with rfl
      decide

/-- On fold-fixed characters the case-insensitive prefix test is the
case-sensitive one. -/
theorem ciPrefix_eq_startsWith :
    ∀ (n h : List Char), (∀ c ∈ n, c.toLower = c) → (∀ c ∈ h, c.toLower = c) →
    ciPrefix n h = startsWith n h := by
  intro n
  induction n with
  | nil => intro h _ _; cases h <;> rfl
  | cons a as ih =>
    intro h hn hh
    cases h with
    | nil => rfl
    | cons b bs =>
      show (likeEqChar a b && ciPrefix as bs) = (a == b && startsWith as bs)
      rw [likeEqChar_fixed a b (hn a (by simp)) (hh b (by simp)),
        ih bs (fun c hc => hn c (List.mem_cons_of_mem a hc))
          (fun c hc => hh c (List.mem_cons_of_mem b hc))]

/-- A prefix match at some drop point is an occurrence. -/
theorem startsWith_drop_occursIn :
    ∀ (s : List Char) (k : Nat) (n : List Char),
    startsWith n (s.drop k) = true → occursIn n s = true := by
  intro s
  induction s with
  | nil =>
    intro k n h
    rw [List.drop_nil] at h
    cases n with
    | nil => rfl
    | cons a as => simp [startsWith] at h
  | cons c cs ih =>
    intro k n h
    cases k with
    | zero =>
      rw [List.drop_zero] at h
      show (startsWith n (c :: cs) || occursIn n cs) = true
      rw [h, Bool.true_or]
    | succ k =>
      rw [List.drop_succ_cons] at h
      show (startsWith n (c :: cs) || occursIn n cs) = true
      rw [ih k n h, Bool.or_true]

/-- Two quote-free strings followed by a quote agree when one prefixes the
other. -/
theorem quotefree_startsWith_eq :
    ∀ (t a : List Char), (∀ c ∈ t, c ≠ '"') → (∀ c ∈ a, c ≠ '"') →
    ∀ (xs ys : List Char),
    startsWith (t ++ '"' :: xs) (a ++ '"' :: ys) = true → t = a := by
  intro t
  induction t with
  | nil =>
    intro a _ ha xs ys h
    cases a with
    | nil => rfl
    | cons d as =>
      exfalso
      rw [List.nil_append] at h
      have : ('"' == d && startsWith xs (as ++ '"' :: ys)) = true := h
      rw [Bool.and_eq_true, beq_iff_eq] at this
      exact ha d (by simp) this.1.symm
  | cons c ts ih =>
    intro a ht ha xs ys h
    cases a with
    | nil =>
      exfalso
      rw [List.nil_append] at h
      have : (c == '"' && startsWith (ts ++ '"' :: xs) ys) = true := h
      rw [Bool.and_eq_true, beq_iff_eq] at this
      exact ht c (by simp) this.1
    | cons d as =>
      have : (c == d && startsWith (ts ++ '"' :: xs) (as ++ '"' :: ys)) = true := h
      rw [Bool.and_eq_true, beq_iff_eq] at this
      rw [this.1, ih as (fun x hx => ht x (List.mem_cons_of_mem c hx))
        (fun x hx => ha x (List.mem_cons_of_mem d hx)) xs ys this.2]

/-- Scanning for a needle that starts with a quote can skip any quote-free
prefix of the haystack. -/
theorem occursIn_skip :
    ∀ (p : List Char), (∀ c ∈ p, c ≠ '"') → ∀ (m X : List Char),
    occursIn ('"' :: m) (p ++ X) = occursIn ('"' :: m) X := by
  intro p
  induction p with
  | nil => intro _ m X; rw [List.nil_append]
  | cons c p' ih =>
    intro hp m X
    rw [List.cons_append]
    show (startsWith ('"' :: m) (c :: (p' ++ X)) || occursIn ('"' :: m) (p' ++ X)) =
      occursIn ('"' :: m) X
    have hc : ('"' == c) = false := by
      rw [beq_eq_false_iff_ne]
      exact fun he => hp c (by simp) he.symm
    show (('"' == c && startsWith m (p' ++ X)) || occursIn ('"' :: m) (p' ++ X)) =
      occursIn ('"' :: m) X
    rw [hc, Bool.false_and, Bool.false_or,
      ih (fun x hx => hp x (List.mem_cons_of_mem c hx)) m X]

/-- Tame strings are quote-free. -/
theorem tame_quotefree (s : List Char) (h : s.all tagChar = true) :
    ∀ c ∈ s, c ≠ '"' := by
  intro c hc
  rw [List.all_eq_true] at h
  exact tagChar_ne c (h c hc) '"' (by decide)

/-- Case split on a boolean disjunction. -/
theorem bor_cases {a b : Bool} (h : (a || b) = true) : a = true ∨ b = true := by
  cases a
  · exact .inr (by simpa using h)
  · exact .inl rfl

/-- An occurrence of a quoted tame needle in the joined-quoted-tags text
(closed by `]`) pins the needle to one of the tags. -/
theorem occursIn_joinQ :
    ∀ (ss : List (List Char)), (∀ s ∈ ss, s.all tagChar = true) →
    ∀ (t : List Char), t ≠ [] → t.all tagChar = true →
    occursIn ('"' :: (t ++ ['"'])) (joinQ ss ++ [']']) = true → t ∈ ss := by
  intro ss
  induction ss with
  | nil =>
    intro _ t htne _ h
    exfalso
    rw [show joinQ [] ++ [']'] = [']'] from rfl] at h
    have h1 : (('"' == ']' && startsWith (t ++ ['"']) []) ||
        ('"' :: (t ++ ['"'])).isEmpty) = true := h
    simp at h1
  | cons a rest ih =>
    intro hss t htne hta h
    have hqa : jsonQuote a = '"' :: a ++ ['"'] := jsonQuote_tame a (hss a (by simp))
    have haq : ∀ c ∈ a, c ≠ '"' := tame_quotefree a (hss a (by simp))
    have htq : ∀ c ∈ t, c ≠ '"' := tame_quotefree t hta
    cases rest with
    | nil =>
      have hshape : joinQ [a] ++ [']'] = '"' :: (a ++ '"' :: ']' :: []) := by
        rw [show joinQ [a] = jsonQuote a from rfl, hqa]
        simp
      rw [hshape] at h
      have h2 : (startsWith ('"' :: (t ++ ['"'])) ('"' :: (a ++ '"' :: ']' :: [])) ||
          occursIn ('"' :: (t ++ ['"'])) (a ++ '"' :: ']' :: [])) = true := h
      rcases bor_cases h2 with hswc | hocc
      · have h3 : startsWith (t ++ ['"']) (a ++ '"' :: ']' :: []) = true := by
          have h3a : ('"' == '"' && startsWith (t ++ ['"']) (a ++ '"' :: ']' :: [])) = true := hswc
          simpa using h3a
        have hta2 : t = a := quotefree_startsWith_eq t a htq haq [] ([']']) h3
        simp [hta2]
      · rw [occursIn_skip a haq (t ++ ['"']) ('"' :: ']' :: [])] at hocc
        have h4 : (startsWith ('"' :: (t ++ ['"'])) ('"' :: ']' :: []) ||
            occursIn ('"' :: (t ++ ['"'])) (']' :: [])) = true := hocc
        rcases bor_cases h4 with h5 | h5
        · exfalso
          have h6 : startsWith (t ++ ['"']) (']' :: []) = true := by
            have h6a : ('"' == '"' && startsWith (t ++ ['"']) (']' :: [])) = true := h5
            simpa using h6a
          cases t with
          | nil => exact htne rfl
          | cons c ts =>
            have h7 : (c == ']' && startsWith (ts ++ ['"']) []) = true := h6
            rw [Bool.and_eq_true, beq_iff_eq] at h7
            have hcC : tagChar c = true := by
              rw [List.all_eq_true] at hta
              exact hta c (by simp)
            exact tagChar_ne c hcC ']' (by decide) h7.1
        · exfalso
          have h8 : (('"' == ']' && startsWith (t ++ ['"']) []) ||
              ('"' :: (t ++ ['"'])).isEmpty) = true := h5
          simp at h8
    | cons b rs =>
      have hshape : joinQ (a :: b :: rs) ++ [']'] =
          '"' :: (a ++ '"' :: ',' :: (joinQ (b :: rs) ++ [']'])) := by
        rw [show joinQ (a :: b :: rs) = jsonQuote a ++ ',' :: joinQ (b :: rs) from rfl, hqa]
        simp
      rw [hshape] at h
      have h2 : (startsWith ('"' :: (t ++ ['"']))
            ('"' :: (a ++ '"' :: ',' :: (joinQ (b :: rs) ++ [']']))) ||
          occursIn ('"' :: (t ++ ['"']))
            (a ++ '"' :: ',' :: (joinQ (b :: rs) ++ [']']))) = true := h
      rcases bor_cases h2 with hswc | hocc
      · have h3 : startsWith (t ++ ['"'])
            (a ++ '"' :: ',' :: (joinQ (b :: rs) ++ [']'])) = true := by
          have h3a : ('"' == '"' && startsWith (t ++ ['"'])
              (a ++ '"' :: ',' :: (joinQ (b :: rs) ++ [']']))) = true := hswc
          simpa using h3a
        have hta2 : t = a :=
          quotefree_startsWith_eq t a htq haq [] (',' :: (joinQ (b :: rs) ++ [']'])) h3
        simp [hta2]
      · rw [occursIn_skip a haq (t ++ ['"'])
          ('"' :: ',' :: (joinQ (b :: rs) ++ [']']))] at hocc
        have h4 : (startsWith ('"' :: (t ++ ['"']))
              ('"' :: ',' :: (joinQ (b :: rs) ++ [']'])) ||
            occursIn ('"' :: (t ++ ['"']))
              (',' :: (joinQ (b :: rs) ++ [']']))) = true := hocc
        rcases bor_cases h4 with h5 | h5
        · exfalso
          have h6 : startsWith (t ++ ['"'])
              (',' :: (joinQ (b :: rs) ++ [']'])) = true := by
            have h6a : ('"' == '"' && startsWith (t ++ ['"'])
                (',' :: (joinQ (b :: rs) ++ [']']))) = true := h5
            simpa using h6a
          cases t with
          | nil => exact htne rfl
          | cons c ts =>
            have h7 : (c == ',' && startsWith (ts ++ ['"'])
                (joinQ (b :: rs) ++ [']'])) = true := h6
            rw [Bool.and_eq_true, beq_iff_eq] at h7
            have hcC : tagChar c = true := by
              rw [List.all_eq_true] at hta
              exact hta c (by simp)
            exact tagChar_ne c hcC ',' (by decide) h7.1
        · have h6 : (startsWith ('"' :: (t ++ ['"']))
                (',' :: (joinQ (b :: rs) ++ [']'])) ||
              occursIn ('"' :: (t ++ ['"'])) (joinQ (b :: rs) ++ [']'])) = true := h5
          rcases bor_cases h6 with h7 | h7
          · exfalso
            have h8 : (('"' == ',') && startsWith (t ++ ['"'])
                (joinQ (b :: rs) ++ [']'])) = true := h7
            simp at h8
          · exact List.mem_cons_of_mem a
              (ih (fun s hs => hss s (List.mem_cons_of_mem a hs)) t htne hta h7)

/-- A LIKE match of `%"t"%` against the serialized tag list of tame tags
means `t` is one of the tags. -/
theorem like_tag_membership (t : List Char) (ss : List (List Char))
    (htne : t ≠ []) (hta : t.all tagChar = true)
    (hss : ∀ s ∈ ss, s.all tagChar = true)
    (hm : likeMatch (tagLikePat t) (serializeStrList ss) = true) : t ∈ ss := by
  have hpat : tagLikePat t = '%' :: (('"' :: (t ++ ['"'])) ++ ['%']) := by
    simp [tagLikePat]
  rw [hpat, likeMatch_pct] at hm
  obtain ⟨k, hk⟩ := hm
  have htarr := List.all_eq_true.mp hta
  have hnp : '%' ∉ ('"' :: (t ++ ['"'])) := by
    intro hmem
    rcases List.mem_cons.mp hmem with heq | hmem
    · exact absurd heq (by decide)
    · rcases List.mem_append.mp hmem with hmem | hmem
      · exact absurd (tagChar_toNat '%' (htarr '%' hmem)) (by decide)
      · exact absurd (List.mem_singleton.mp hmem) (by decide)
  have hnu : '_' ∉ ('"' :: (t ++ ['"'])) := by
    intro hmem
    rcases List.mem_cons.mp hmem with heq | hmem
    · exact absurd heq (by decide)
    · rcases List.mem_append.mp hmem with hmem | hmem
      · exact absurd (tagChar_toNat '_' (htarr '_' hmem)) (by decide)
      · exact absurd (List.mem_singleton.mp hmem) (by decide)
  rw [likeMatch_pfx ('"' :: (t ++ ['"'])) hnp hnu] at hk
  have hfixn : ∀ c ∈ ('"' :: (t ++ ['"'])), c.toLower = c := by
    intro c hc
    rcases List.mem_cons.mp hc with rfl | hc
    · decide
    · rcases List.mem_append.mp hc with hc | hc
      · exact tagChar_toLower c (htarr c hc)
      · rcases List.mem_singleton.mp hc with rfl
        decide
  have hfixh : ∀ c ∈ (serializeStrList ss).drop k, c.toLower = c :=
    fun c hc => serializeStrList_fixed ss hss c (List.mem_of_mem_drop hc)
  rw [ciPrefix_eq_startsWith ('"' :: (t ++ ['"'])) _ hfixn hfixh] at hk
  have hocc : occursIn ('"' :: (t ++ ['"'])) (serializeStrList ss) = true :=
    startsWith_drop_occursIn _ k _ hk
  unfold serializeStrList at hocc
  have h2 : (startsWith ('"' :: (t ++ ['"'])) ('[' :: (joinQ ss ++ [']'])) ||
      occursIn ('"' :: (t ++ ['"'])) (joinQ ss ++ [']'])) = true := hocc
  rcases bor_cases h2 with h3 | h3
  · exfalso
    have h4 : (('"' == '[') && startsWith (t ++ ['"']) (joinQ ss ++ [']'])) = true := h3
    simp at h4
  · exact occursIn_joinQ ss hss t htne hta h3

/-- Members of the insert-sorted list come from the insertion. -/
theorem insertTsDesc_mem (x e : Event) :
    ∀ l, x ∈ insertTsDesc e l → x = e ∨ x ∈ l := by
  intro l
  induction l with
  | nil =>
    intro h
    simp [insertTsDesc] at h
    exact .inl h
  | cons y ys ih =>
    intro h
    unfold insertTsDesc at h
    by_cases hc : y.timestamp < e.timestamp
    · rw [if_pos hc] at h
      rcases List.mem_cons.mp h with rfl | h
      · exact .inl rfl
      · exact .inr h
    · rw [if_neg hc] at h
      rcases List.mem_cons.mp h with rfl | h
      · exact .inr (by simp)
      · rcases ih h with h | h
        · exact .inl h
        · exact .inr (List.mem_cons_of_mem y h)

/-- The ORDER BY permutes; membership is preserved. -/
theorem sortTsDesc_mem (x : Event) :
    ∀ l : List Event, x ∈ l.foldr insertTsDesc [] → x ∈ l := by
  intro l
  induction l with
  | nil => intro h; exact h
  | cons y ys ih =>
    intro h
    rcases insertTsDesc_mem x y (ys.foldr insertTsDesc []) h with rfl | h
    · exact by simp
    · exact List.mem_cons_of_mem y (ih h)

/-- Every event of a returned page is a stored event passing the WHERE
clause. -/
theorem listEvents_mem (uid : List Char) (ps : ListParams) (db : List Event)
    (ev : Event) (h : ev ∈ listEvents uid ps db) :
    ev ∈ db ∧ evMatches uid ps ev = true := by
  unfold listEvents at h
  have h1 := List.mem_of_mem_take h
  have h2 := List.mem_of_mem_drop h1
  have h3 := sortTsDesc_mem ev _ h2
  exact ⟨(List.mem_filter.mp h3).1, (List.mem_filter.mp h3).2⟩

/-! ### C4 -/

/-- C4 (counterexample): the tags filter is a SQL `LIKE` on the serialized
tag text, so the wildcard `_` in a requested tag matches events that do not
contain the tag: `tags=h_alth` returns an event whose only stored tag is
`health`, which is not a superset of `{h_alth}`. -/
theorem like_tag_filter_wildcard_leak :
    listEvents "u".data psWild [evHealth] = [evHealth] ∧
    evHealth.tags = some (serializeStrList ["health".data]) ∧
    (splitOnC ',' "h_alth".data).map trimLC = ["h_alth".data] ∧
    "h_alth".data ∉ ["health".data] :=
  ⟨by decide, rfl, by decide, by decide⟩

/-- C4 (amended): intersection semantics holds for tame tags — when every
requested tag (comma-split, trimmed) and every stored tag of the event is a
non-empty string of lowercase ASCII letters and digits, every event in the
returned page contains every requested tag; with LIKE wildcards (`%`, `_`)
or case differences in a requested tag, an event lacking the tag can be
returned. -/
theorem list_tags_filter_amended (db : List Event) (uid : List Char)
    (ps : ListParams) (qs : List Char) (ev : Event) (ss : List (List Char))
    (hq : ps.tags = some qs) (hqne : qs.isEmpty = false)
    (hreq : ∀ t ∈ (splitOnC ',' qs).map trimLC, t ≠ [] ∧ t.all tagChar = true)
    (hmem : ev ∈ listEvents uid ps db)
    (hevt : ev.tags = some (serializeStrList ss))
    (hst : ∀ s ∈ ss, s.all tagChar = true) :
    ∀ t ∈ (splitOnC ',' qs).map trimLC, t ∈ ss := by
  intro t ht
  have hm := (listEvents_mem uid ps db ev hmem).2
  unfold evMatches at hm
  rw [hq] at hm
  simp only [hqne, Bool.false_eq_true, if_false, Bool.and_eq_true] at hm
  obtain ⟨-, htags⟩ := hm
  rw [List.all_eq_true] at htags
  have hlike := htags t ht
  rw [hevt] at hlike
  have hlike2 : likeMatch (tagLikePat t) (serializeStrList ss) = true := hlike
  exact like_tag_membership t ss (hreq t ht).1 (hreq t ht).2 hst hlike2

/-- C4 (witness). -/
theorem list_tags_filter_amended_witness :
    "health".data ∈ ["health".data, "am".data] ∧
    "am".data ∈ ["health".data, "am".data] :=
  ⟨list_tags_filter_amended [evHA] "u".data psHA "health,am".data evHA
     ["health".data, "am".data] rfl (by decide) (by decide) (by decide) rfl
     (by decide) "health".data (by decide),
   list_tags_filter_amended [evHA] "u".data psHA "health,am".data evHA
     ["health".data, "am".data] rfl (by decide) (by decide) (by decide) rfl
     (by decide) "am".data (by decide)⟩

end Lifelogs
example : Lifelogs.parseCSVLine "a,\"b,c\",d".data = ["a".data, "b,c".data, "d".data] := by decide
example : Lifelogs.parseCSVLine "a,\"b\"\"c\",d".data = ["a".data, "b\"c".data, "d".data] := by decide
example : Lifelogs.splitNl "a\n\nb".data = ["a".data, [], "b".data] := by decide
example : Lifelogs.trimLC "  x ".data = "x".data := by decide
example : Lifelogs.parseTimestamp (fun _ => none) (.num 1700000000) = .ok 1700000000000 := rfl
